import Mathlib

/-!
Shallow embedding of the TFG-RealTime collaboration gateway, covering the
workspace presence engine, the chat handler, the note collaboration handler,
the Redis shared-state client, and the socket authentication middleware.
JavaScript objects and Maps are modelled as association lists that preserve
insertion order: writing to an existing key updates the entry in place and
writing a fresh key appends, exactly as JavaScript key enumeration behaves.
Date.now() is an explicit natural-number parameter threaded through each
operation, and every socket emission is reified as an event value.
-/

/-- Lookup in a JavaScript object or Map: first entry with the given key. -/
def jsGet (k : String) (l : List (String × α)) : Option α :=
  (l.find? (fun p => p.1 == k)).map (·.2)

/-- Write to a JavaScript object or Map: an existing key keeps its position
and gets the new value, a fresh key is appended at the end. -/
def jsSet (k : String) (v : α) (l : List (String × α)) : List (String × α) :=
  if l.any (fun p => p.1 == k) then
    l.map (fun p => if p.1 == k then (k, v) else p)
  else
    l ++ [(k, v)]

/-- Key removal from a JavaScript object or Map. -/
def jsDelete (k : String) (l : List (String × α)) : List (String × α) :=
  l.filter (fun p => !(p.1 == k))

/-- Object.values: the values in key insertion order. -/
def jsValues (l : List (String × α)) : List α :=
  l.map (·.2)

/-- Lookup defaulting to a given value, as in the idiom (await get(key)) || dflt. -/
def jsGetD (k : String) (l : List (String × α)) (dflt : α) : α :=
  (jsGet k l).getD dflt

/-- JavaScript truthiness of an optional string field: undefined and the empty
string are falsy. -/
def jsTruthyS : Option String → Bool
  | none => false
  | some s => s != ""

@[simp] theorem jsGet_nil (k : String) : jsGet k ([] : List (String × α)) = none := rfl

@[simp] theorem jsGet_cons (k k' : String) (v : α) (l : List (String × α)) :
    jsGet k ((k', v) :: l) = if k' == k then some v else jsGet k l := by
  by_cases h : k' == k <;> simp [jsGet, List.find?, h]

theorem jsGet_delete_self (k : String) (l : List (String × α)) :
    jsGet k (jsDelete k l) = none := by
  induction l with
  | nil => rfl
  | cons p rest ih =>
    obtain ⟨k', v⟩ := p
    by_cases h : k' == k
    · simp only [jsDelete, List.filter, h] at ih ⊢
      exact ih
    · simp only [jsDelete, List.filter, h] at ih ⊢
      simp only [jsGet, List.find?, h] at ih ⊢
      simp [h]

/-- User snapshot carried in presence records, as sent by clients on join. -/
structure UserData where
  id : String
  email : String
  name : String
  image : Option String := none
  isReconnection : Bool := false
deriving DecidableEq, Repr

/-- WorkspaceHandler.removeDuplicateUsers: walks the user list front to back
and keeps an entry only when its email has not been seen yet. -/
def removeDuplicateUsersGo (seen : List String) : List UserData → List UserData
  | [] => []
  | u :: rest =>
    if u.email ∈ seen then removeDuplicateUsersGo seen rest
    else u :: removeDuplicateUsersGo (u.email :: seen) rest

/-- WorkspaceHandler.removeDuplicateUsers from workspace.handler.js. -/
def removeDuplicateUsers (users : List UserData) : List UserData :=
  removeDuplicateUsersGo [] users

theorem removeDuplicateUsersGo_email_not_seen (us : List UserData) (seen : List String)
    (u : UserData) (hu : u ∈ removeDuplicateUsersGo seen us) : u.email ∉ seen := by
  induction us generalizing seen with
  | nil => simp [removeDuplicateUsersGo] at hu
  | cons v rest ih =>
    by_cases h : v.email ∈ seen
    · exact ih seen (by simpa [removeDuplicateUsersGo, h] using hu)
    · simp only [removeDuplicateUsersGo, if_neg h] at hu
      rcases List.mem_cons.mp hu with rfl | hu2
      · exact h
      · intro hmem
        exact ih (v.email :: seen) hu2 (List.mem_cons_of_mem _ hmem)

theorem removeDuplicateUsersGo_nodup (us : List UserData) (seen : List String) :
    ((removeDuplicateUsersGo seen us).map (·.email)).Nodup := by
  induction us generalizing seen with
  | nil => simp [removeDuplicateUsersGo]
  | cons v rest ih =>
    by_cases h : v.email ∈ seen
    · simpa [removeDuplicateUsersGo, h] using ih seen
    · simp only [removeDuplicateUsersGo, if_neg h, List.map_cons, List.nodup_cons]
      refine ⟨?_, ih (v.email :: seen)⟩
      intro hmem
      rcases List.mem_map.mp hmem with ⟨w, hw, hew⟩
      have := removeDuplicateUsersGo_email_not_seen rest (v.email :: seen) w hw
      exact this (by simp [hew])

/-- Email deduplication keeps, for each email, exactly the first entry of the
input carrying that email. -/
theorem removeDuplicateUsersGo_find (us : List UserData) (seen : List String) (e : String) :
    (removeDuplicateUsersGo seen us).find? (fun u => u.email == e) =
      (if e ∈ seen then none else us.find? (fun u => u.email == e)) := by
  induction us generalizing seen with
  | nil => simp [removeDuplicateUsersGo]
  | cons v rest ih =>
    by_cases hs : v.email ∈ seen
    · rw [show removeDuplicateUsersGo seen (v :: rest) =
          (if v.email ∈ seen then removeDuplicateUsersGo seen rest
           else v :: removeDuplicateUsersGo (v.email :: seen) rest) from rfl,
        if_pos hs, ih]
      by_cases he : e ∈ seen
      · simp [he]
      · have hne : ¬(v.email == e) = true := fun hb => he (eq_of_beq hb ▸ hs)
        simp [he, List.find?, hne]
    · rw [show removeDuplicateUsersGo seen (v :: rest) =
          (if v.email ∈ seen then removeDuplicateUsersGo seen rest
           else v :: removeDuplicateUsersGo (v.email :: seen) rest) from rfl,
        if_neg hs]
      by_cases hve : (v.email == e) = true
      · have he : e ∉ seen := fun hmem => hs ((eq_of_beq hve).symm ▸ hmem)
        simp [List.find?, hve, he]
      · have hmemiff : (e ∈ v.email :: seen) ↔ (e ∈ seen) := by
          constructor
          · intro hm
            rcases List.mem_cons.mp hm with h1 | h1
            · subst h1; simp at hve
            · exact h1
          · exact List.mem_cons_of_mem _
        simp [List.find?, hve, ih, hmemiff]

/-! ## Workspace presence engine (workspace.handler.js) -/

/-- Reconnect grace delay of 5000 ms used by WorkspaceHandler.handleDisconnect. -/
def RECONNECT_GRACE : Nat := 5000

/-- Entry of the pendingDisconnections map: user snapshot, workspace and the
absolute instant at which the scheduled timer fires. -/
structure PendingDisconnection where
  userData : UserData
  workspaceId : String
  deadline : Nat
deriving DecidableEq, Repr

/-- Process state touched by WorkspaceHandler: the local workspaceSockets map,
the shared-store records stored under the users key of each workspace, the
userLastSeen map, and the pendingDisconnections map. -/
structure WorkspaceState where
  workspaceSockets : List (String × List (String × UserData)) := []
  redisUsers : List (String × List (String × UserData)) := []
  userLastSeen : List (String × List (String × Nat)) := []
  pendingDisconnections : List (String × PendingDisconnection) := []
deriving DecidableEq, Repr

/-- Emissions of the workspace handler. The usersConnected constructor covers
both the room broadcasts and the unicast reply of get_workspace_users. -/
inductive WsEvent where
  | usersConnected (workspaceId : String) (users : List UserData)
  | userJoined (workspaceId : String) (user : UserData)
  | userLeft (workspaceId : String) (user : UserData)
deriving DecidableEq, Repr

/-- Recognizer for user_left emissions. -/
def WsEvent.isUserLeft : WsEvent → Bool
  | .userLeft _ _ => true
  | _ => false

/-- Events emitted at the end of handleJoinWorkspace: the deduplicated
users_connected broadcast, then user_joined unless a reconnection replaced an
existing session. -/
def joinEvents (ws : String) (u : UserData) (connected : List UserData)
    (shouldNotifyJoin : Bool) : List WsEvent :=
  WsEvent.usersConnected ws connected ::
    (if shouldNotifyJoin then [WsEvent.userJoined ws u] else [])

/-- Events emitted at the end of handleLeaveWorkspace: user_left plus the
refreshed users_connected when the leaving user was found, nothing otherwise. -/
def leaveEvents (ws : String) (userData : Option UserData)
    (remaining : List (String × UserData)) : List WsEvent :=
  match userData with
  | some u => [WsEvent.userLeft ws u,
      WsEvent.usersConnected ws (removeDuplicateUsers (jsValues remaining))]
  | none => []

/-- WorkspaceHandler.handleJoinWorkspace, success path: load the shared
record, find an older session with the same email, cancel a matching pending
disconnection, evict the older session from both views, clean same-email
entries from the local map, insert the new session in both views, refresh
last-seen, and emit users_connected plus, conditionally, user_joined. -/
def handleJoinWorkspace (sid ws : String) (u : UserData) (now : Nat)
    (s : WorkspaceState) : WorkspaceState × List WsEvent :=
  let cur0 := jsGetD ws s.redisUsers []
  let existingUserSocket := cur0.find? (fun p => p.2.email == u.email && p.1 != sid)
  let pendingMatch := s.pendingDisconnections.find?
    (fun p => p.2.userData.email == u.email && p.2.workspaceId == ws)
  let pending1 := match pendingMatch with
    | some p => jsDelete p.1 s.pendingDisconnections
    | none => s.pendingDisconnections
  let cur1 := match existingUserSocket with
    | some p => jsDelete p.1 cur0
    | none => cur0
  let sockets1 := match existingUserSocket with
    | some p =>
      (match jsGet ws s.workspaceSockets with
       | some m => jsSet ws (jsDelete p.1 m) s.workspaceSockets
       | none => s.workspaceSockets)
    | none => s.workspaceSockets
  let localMap0 := match jsGet ws sockets1 with
    | none => []
    | some m => m.filter (fun p => !(p.2.email == u.email && p.1 != sid))
  let sockets2 := jsSet ws (jsSet sid u localMap0) sockets1
  let cur2 := jsSet sid u cur1
  let redis1 := jsSet ws cur2 s.redisUsers
  let lastSeen1 := jsSet ws (jsSet u.email now (jsGetD ws s.userLastSeen []))
    s.userLastSeen
  let connectedUsers := removeDuplicateUsers (jsValues cur2)
  let shouldNotifyJoin := !u.isReconnection || existingUserSocket.isNone
  ({ workspaceSockets := sockets2, redisUsers := redis1,
     userLastSeen := lastSeen1, pendingDisconnections := pending1 },
   joinEvents ws u connectedUsers shouldNotifyJoin)

/-- WorkspaceHandler.handleLeaveWorkspace, success path: cancel a pending
disconnection for this socket, remove the socket from the local and shared
views, refresh last-seen, and emit user_left plus the refreshed
users_connected when user data was found. -/
def handleLeaveWorkspace (sid ws : String) (now : Nat)
    (s : WorkspaceState) : WorkspaceState × List WsEvent :=
  let pending1 := if (jsGet sid s.pendingDisconnections).isSome
    then jsDelete sid s.pendingDisconnections else s.pendingDisconnections
  let uLocal := match jsGet ws s.workspaceSockets with
    | some m => jsGet sid m
    | none => none
  let sockets1 := match jsGet ws s.workspaceSockets with
    | some m => jsSet ws (jsDelete sid m) s.workspaceSockets
    | none => s.workspaceSockets
  let wsUsers0 := jsGetD ws s.redisUsers []
  let hasRedisEntry := (jsGet sid wsUsers0).isSome
  let userData := match uLocal with
    | some u => some u
    | none => jsGet sid wsUsers0
  let wsUsers1 := if hasRedisEntry then jsDelete sid wsUsers0 else wsUsers0
  let redis1 := if hasRedisEntry then jsSet ws wsUsers1 s.redisUsers else s.redisUsers
  let lastSeen1 := match userData with
    | some u =>
      if (jsGet ws s.userLastSeen).isSome then
        jsSet ws (jsSet u.email now (jsGetD ws s.userLastSeen [])) s.userLastSeen
      else s.userLastSeen
    | none => s.userLastSeen
  ({ workspaceSockets := sockets1, redisUsers := redis1,
     userLastSeen := lastSeen1, pendingDisconnections := pending1 },
   leaveEvents ws userData wsUsers1)

/-- WorkspaceHandler.handleGetWorkspaceUsers, success path: unicast the
deduplicated shared-store record to the caller; the state is unchanged. -/
def handleGetWorkspaceUsers (ws : String) (s : WorkspaceState) :
    WorkspaceState × List WsEvent :=
  (s, [WsEvent.usersConnected ws
        (removeDuplicateUsers (jsValues (jsGetD ws s.redisUsers [])))])

/-- WorkspaceHandler.handleDisconnect: for every workspace whose local map
holds this socket, record a pending disconnection whose timer fires
RECONNECT_GRACE milliseconds later. Nothing is emitted here. -/
def handleDisconnect (sid : String) (now : Nat) (s : WorkspaceState) :
    WorkspaceState :=
  { s with pendingDisconnections :=
      s.workspaceSockets.foldl (fun acc p =>
        match jsGet sid p.2 with
        | some u => jsSet sid ⟨u, p.1, now + RECONNECT_GRACE⟩ acc
        | none => acc) s.pendingDisconnections }

/-- The timer callback scheduled by handleDisconnect for a socket and a
workspace: when the disconnection is still pending, the entry is dropped and a
full leave runs; a cancelled timer does nothing and emits nothing. -/
def fireDisconnectTimer (sid ws : String) (now : Nat) (s : WorkspaceState) :
    WorkspaceState × List WsEvent :=
  if (jsGet sid s.pendingDisconnections).isSome then
    handleLeaveWorkspace sid ws now
      { s with pendingDisconnections := jsDelete sid s.pendingDisconnections }
  else (s, [])

theorem joinEvents_no_userLeft (ws : String) (u : UserData)
    (connected : List UserData) (b : Bool) (e : WsEvent)
    (he : e ∈ joinEvents ws u connected b) : e.isUserLeft = false := by
  rcases List.mem_cons.mp he with rfl | h2
  · rfl
  · cases b <;> simp [joinEvents] at h2
    subst h2; rfl

theorem joinEvents_usersConnected (ws : String) (u : UserData)
    (connected : List UserData) (b : Bool) (ws2 : String) (l : List UserData)
    (he : WsEvent.usersConnected ws2 l ∈ joinEvents ws u connected b) :
    l = connected := by
  rcases List.mem_cons.mp he with h1 | h2
  · cases h1
    rfl
  · cases b <;> simp [joinEvents] at h2

theorem leaveEvents_usersConnected (ws : String) (uo : Option UserData)
    (rem : List (String × UserData)) (ws2 : String) (l : List UserData)
    (he : WsEvent.usersConnected ws2 l ∈ leaveEvents ws uo rem) :
    l = removeDuplicateUsers (jsValues rem) := by
  cases uo with
  | none => simp [leaveEvents] at he
  | some u =>
    rcases List.mem_cons.mp he with h1 | h2
    · exact absurd h1 (by simp)
    · simp [leaveEvents] at h2
      exact h2.2.symm ▸ rfl

/-- Shape of the join emissions: users_connected first, then an optional
user_joined. -/
theorem handleJoinWorkspace_events_shape (sid ws : String) (u : UserData)
    (now : Nat) (s : WorkspaceState) :
    ∃ c b, (handleJoinWorkspace sid ws u now s).2 = joinEvents ws u c b :=
  ⟨_, _, rfl⟩

/-- Shape of the leave emissions. -/
theorem handleLeaveWorkspace_events_shape (sid ws : String) (now : Nat)
    (s : WorkspaceState) :
    ∃ uo rem, (handleLeaveWorkspace sid ws now s).2 = leaveEvents ws uo rem :=
  ⟨_, _, rfl⟩

/-- C1, amended: every users_connected payload broadcast or unicast by the
workspace presence engine contains each email at most once, and when several
sessions of the record share an email the deduplicated snapshot keeps the
first-written entry for that email, not the last-written one: for every email
the kept entry is the first matching entry of the record values. -/
theorem usersConnected_email_unique_keeps_first :
    (∀ us : List UserData, ((removeDuplicateUsers us).map (·.email)).Nodup)
    ∧ (∀ (us : List UserData) (e : String),
        (removeDuplicateUsers us).find? (fun u => u.email == e) =
          us.find? (fun u => u.email == e))
    ∧ (∀ (sid ws : String) (u : UserData) (now : Nat) (s : WorkspaceState)
        (ws2 : String) (l : List UserData),
        WsEvent.usersConnected ws2 l ∈ (handleJoinWorkspace sid ws u now s).2 →
          (l.map (·.email)).Nodup)
    ∧ (∀ (sid ws : String) (now : Nat) (s : WorkspaceState)
        (ws2 : String) (l : List UserData),
        WsEvent.usersConnected ws2 l ∈ (handleLeaveWorkspace sid ws now s).2 →
          (l.map (·.email)).Nodup)
    ∧ (∀ (ws : String) (s : WorkspaceState) (ws2 : String) (l : List UserData),
        WsEvent.usersConnected ws2 l ∈ (handleGetWorkspaceUsers ws s).2 →
          (l.map (·.email)).Nodup) := by
  have hnodup : ∀ us : List UserData,
      ((removeDuplicateUsers us).map (·.email)).Nodup :=
    fun us => removeDuplicateUsersGo_nodup us []
  refine ⟨hnodup, ?_, ?_, ?_, ?_⟩
  · intro us e
    simpa using removeDuplicateUsersGo_find us [] e
  · intro sid ws u now s ws2 l hmem
    simp only [handleJoinWorkspace] at hmem
    have hl := joinEvents_usersConnected _ _ _ _ _ _ hmem
    rw [hl]
    exact hnodup _
  · intro sid ws now s ws2 l hmem
    simp only [handleLeaveWorkspace] at hmem
    have hl := leaveEvents_usersConnected _ _ _ _ _ hmem
    rw [hl]
    exact hnodup _
  · intro ws s ws2 l hmem
    simp only [handleGetWorkspaceUsers, List.mem_singleton] at hmem
    cases hmem
    exact hnodup _

/-- First-written session snapshot for the duplicated email. -/
def uA1 : UserData := { id := "u1", email := "a@x", name := "Alice One" }

/-- Last-written session snapshot for the duplicated email. -/
def uA2 : UserData := { id := "u2", email := "a@x", name := "Alice Two" }

/-- Workspace state whose shared record for ws1 holds two sessions sharing the
email a@x, the entry of uA2 having been written last. -/
def wsDupState : WorkspaceState :=
  { redisUsers := [("ws1", [("s1", uA1), ("s2", uA2)])] }

/-- C1 counterexample: with two sessions of ws1 sharing the email a@x, uA2
written last, the users_connected payload that get_workspace_users unicasts is
the deduplicated snapshot keeping the first-written entry uA1, while the
last-written entry for that email is uA2, a different snapshot. The claimed
last-writer-wins collapsing is therefore false on this input. -/
theorem usersConnected_last_writer_wins_cex :
    (handleGetWorkspaceUsers "ws1" wsDupState).2 =
      [WsEvent.usersConnected "ws1" [uA1]]
    ∧ (jsValues (jsGetD "ws1" wsDupState.redisUsers [])).getLast? = some uA2
    ∧ uA1.email = uA2.email
    ∧ uA1 ≠ uA2 := by
  refine ⟨?_, ?_, rfl, by decide⟩
  · simp [handleGetWorkspaceUsers, wsDupState, jsGetD, jsGet, List.find?,
      jsValues, removeDuplicateUsers, removeDuplicateUsersGo, uA1, uA2]
  · simp [wsDupState, jsGetD, jsGet, List.find?, jsValues]

/-- C1 witness: the amended theorem applied at a concrete duplicated record
and a concrete get_workspace_users call. -/
theorem usersConnected_email_unique_keeps_first_witness :
    ((removeDuplicateUsers [uA1, uA2]).map (·.email)).Nodup
    ∧ (([uA1] : List UserData).map (·.email)).Nodup :=
  ⟨usersConnected_email_unique_keeps_first.1 [uA1, uA2],
   usersConnected_email_unique_keeps_first.2.2.2.2 "ws1" wsDupState "ws1" [uA1]
     (by simp [handleGetWorkspaceUsers, wsDupState, jsGetD, jsGet, List.find?,
       jsValues, removeDuplicateUsers, removeDuplicateUsersGo, uA1, uA2])⟩

/-- C2: a session sid0 present in workspace ws disconnects with no other
pending disconnection. Then (1) a pending disconnection with deadline
now + RECONNECT_GRACE is recorded; (2) if another session with the same email
joins the same workspace before the timer fires, the pending entry is
cancelled, the join emits no user_left, and the timer afterwards fires as a
no-op, so no user_left is ever emitted for the disconnected session; (3) if no
such join occurs, the timer firing after the grace window emits exactly one
user_left, carrying the disconnected user. -/
theorem workspace_reconnect_grace (s : WorkspaceState) (sid0 ws : String)
    (m : List (String × UserData)) (u0 : UserData) (now : Nat)
    (hsock : s.workspaceSockets = [(ws, m)])
    (hm : jsGet sid0 m = some u0)
    (hpend : s.pendingDisconnections = []) :
    (handleDisconnect sid0 now s).pendingDisconnections =
      [(sid0, ⟨u0, ws, now + RECONNECT_GRACE⟩)]
    ∧ (∀ (sid1 : String) (u1 : UserData) (t1 : Nat), u1.email = u0.email →
        jsGet sid0 (handleJoinWorkspace sid1 ws u1 t1
            (handleDisconnect sid0 now s)).1.pendingDisconnections = none
        ∧ (∀ e ∈ (handleJoinWorkspace sid1 ws u1 t1
            (handleDisconnect sid0 now s)).2, e.isUserLeft = false)
        ∧ (∀ t2, fireDisconnectTimer sid0 ws t2
            (handleJoinWorkspace sid1 ws u1 t1 (handleDisconnect sid0 now s)).1 =
              ((handleJoinWorkspace sid1 ws u1 t1 (handleDisconnect sid0 now s)).1,
               [])))
    ∧ (∀ t2,
        ((fireDisconnectTimer sid0 ws t2 (handleDisconnect sid0 now s)).2.countP
            WsEvent.isUserLeft) = 1
        ∧ WsEvent.userLeft ws u0 ∈
            (fireDisconnectTimer sid0 ws t2 (handleDisconnect sid0 now s)).2) := by
  have hp1 : (handleDisconnect sid0 now s).pendingDisconnections =
      [(sid0, ⟨u0, ws, now + RECONNECT_GRACE⟩)] := by
    simp [handleDisconnect, hsock, hpend, hm, jsSet]
  have hsock1 : (handleDisconnect sid0 now s).workspaceSockets = [(ws, m)] := by
    simp [handleDisconnect, hsock]
  refine ⟨hp1, ?_, ?_⟩
  · intro sid1 u1 t1 hem
    have hjpend : (handleJoinWorkspace sid1 ws u1 t1
        (handleDisconnect sid0 now s)).1.pendingDisconnections = [] := by
      simp only [handleJoinWorkspace]
      rw [hp1]
      simp [List.find?, hem, jsDelete, List.filter]
    refine ⟨by rw [hjpend]; rfl, ?_, ?_⟩
    · intro e he
      exact joinEvents_no_userLeft _ _ _ _ _ he
    · intro t2
      rw [fireDisconnectTimer, hjpend]
      rfl
  · intro t2
    have hcond : (jsGet sid0
        (handleDisconnect sid0 now s).pendingDisconnections).isSome = true := by
      rw [hp1]
      simp
    constructor
    · simp only [fireDisconnectTimer, hcond, if_true, handleLeaveWorkspace]
      simp [hsock1, hm, leaveEvents, WsEvent.isUserLeft, List.countP_cons]
    · simp only [fireDisconnectTimer, hcond, if_true, handleLeaveWorkspace]
      simp [hsock1, hm, leaveEvents]

/-- Workspace state with the single session sA of user uA1 in workspace w1. -/
def wsGraceState : WorkspaceState :=
  { workspaceSockets := [("w1", [("sA", uA1)])] }

/-- C2 witness: the grace theorem applied at a concrete one-session state. -/
theorem workspace_reconnect_grace_witness :
    (handleDisconnect "sA" 0 wsGraceState).pendingDisconnections =
      [("sA", ⟨uA1, "w1", 0 + RECONNECT_GRACE⟩)]
    ∧ ((fireDisconnectTimer "sA" "w1" 6000
        (handleDisconnect "sA" 0 wsGraceState)).2.countP WsEvent.isUserLeft) = 1 :=
  ⟨(workspace_reconnect_grace wsGraceState "sA" "w1" [("sA", uA1)] uA1 0 rfl
      (by decide) rfl).1,
   ((workspace_reconnect_grace wsGraceState "sA" "w1" [("sA", uA1)] uA1 0 rfl
      (by decide) rfl).2.2 6000).1⟩

/-! ## Chat handler (ChatHandler in chat.handler.js) -/

/-- Maximum number of stored messages per workspace. -/
def MESSAGE_LIMIT : Nat := 100

/-- Milliseconds after which a silent typing user is swept. -/
def TYPING_TIMEOUT : Nat := 5000

/-- Message object built by handleNewMessage. -/
structure ChatMessage where
  id : String
  workspaceId : String
  senderEmail : String
  senderName : Option String
  senderImage : Option String
  content : String
  timestamp : String
deriving DecidableEq, Repr

/-- Incoming new_message payload; absent fields are none and JavaScript treats
empty strings as missing too. -/
structure MessageData where
  workspaceId : Option String := none
  senderEmail : Option String := none
  senderName : Option String := none
  senderImage : Option String := none
  content : Option String := none
deriving DecidableEq, Repr

/-- Typing-state entry: display name and last-update timestamp. -/
structure TypingEntry where
  name : Option String
  timestamp : Nat
deriving DecidableEq, Repr

/-- Compressed wire form of a chat message with single-letter field names. -/
structure CompressedMessage where
  i : String
  w : String
  e : String
  n : Option String
  img : Option String
  c : String
  t : String
deriving DecidableEq, Repr

/-- Process state touched by ChatHandler: the local bounded deque and typing
map, plus their shared-store counterparts keyed by workspace id. -/
structure ChatState where
  workspaceMessages : List (String × List ChatMessage) := []
  typingUsers : List (String × List (String × TypingEntry)) := []
  redisMessages : List (String × List ChatMessage) := []
  redisTyping : List (String × List (String × TypingEntry)) := []
deriving DecidableEq, Repr

/-- Emissions of the chat handler. errorToSender is a unicast to the sending
session; the broadcast constructors go to the workspace room. -/
inductive ChatEvent where
  | errorToSender (message : String)
  | newMessageBroadcast (workspaceId : String) (m : CompressedMessage)
  | typingBroadcast (workspaceId email : String) (name : Option String)
  | stopTypingBroadcast (workspaceId email : String) (name : Option String)
deriving DecidableEq, Repr

/-- ChatHandler.handleUserStopTyping: ignore payloads without truthy
workspaceId and email; otherwise remove the typing entry from the local map
and the shared store and broadcast user_stop_typing. -/
def handleUserStopTyping (dWs dEmail dName : Option String) (s : ChatState) :
    ChatState × List ChatEvent :=
  if !(jsTruthyS dWs && jsTruthyS dEmail) then (s, [])
  else
    let ws := dWs.getD ""
    let email := dEmail.getD ""
    let typing1 := match jsGet ws s.typingUsers with
      | some m => jsSet ws (jsDelete email m) s.typingUsers
      | none => s.typingUsers
    let redisTyping1 :=
      jsSet ws (jsDelete email (jsGetD ws s.redisTyping [])) s.redisTyping
    ({ s with typingUsers := typing1, redisTyping := redisTyping1 },
     [ChatEvent.stopTypingBroadcast ws email dName])

/-- ChatHandler._compressMessage: single-letter field names; the image is
included only when present, truthy, and shorter than 200 characters. -/
def compressMessage (m : ChatMessage) : CompressedMessage :=
  { i := m.id, w := m.workspaceId, e := m.senderEmail, n := m.senderName,
    img := match m.senderImage with
      | some img => if img != "" && img.length < 200 then some img else none
      | none => none,
    c := m.content, t := m.timestamp }

/-- The message object constructed inside handleNewMessage, with the
server-assigned id and timestamp passed explicitly. -/
def mkChatMessage (d : MessageData) (msgId ts : String) : ChatMessage :=
  { id := msgId, workspaceId := d.workspaceId.getD "",
    senderEmail := d.senderEmail.getD "", senderName := d.senderName,
    senderImage := d.senderImage, content := d.content.getD "",
    timestamp := ts }

/-- ChatHandler.handleNewMessage: validate workspaceId, content and
senderEmail; on failure emit the typed error to the sender only and leave the
state untouched. Otherwise append the new message to the local deque and the
shared list, trim both to the last MESSAGE_LIMIT entries (slice and splice in
the source both keep the suffix of length MESSAGE_LIMIT), broadcast the
compressed form to the workspace room, and clear the sender typing state. -/
def handleNewMessage (d : MessageData) (msgId ts : String) (s : ChatState) :
    ChatState × List ChatEvent :=
  if !(jsTruthyS d.workspaceId && jsTruthyS d.content && jsTruthyS d.senderEmail)
  then
    (s, [ChatEvent.errorToSender "Datos de mensaje incompletos"])
  else
    let ws := d.workspaceId.getD ""
    let newMessage := mkChatMessage d msgId ts
    let local0 := jsGetD ws s.workspaceMessages [] ++ [newMessage]
    let local1 := if local0.length > MESSAGE_LIMIT
      then local0.drop (local0.length - MESSAGE_LIMIT) else local0
    let wm1 := jsSet ws local1 s.workspaceMessages
    let redis0 := jsGetD ws s.redisMessages [] ++ [newMessage]
    let redis1 := if redis0.length > MESSAGE_LIMIT
      then redis0.drop (redis0.length - MESSAGE_LIMIT) else redis0
    let rm1 := jsSet ws redis1 s.redisMessages
    let s1 : ChatState :=
      { s with workspaceMessages := wm1, redisMessages := rm1 }
    let s2 := (handleUserStopTyping d.workspaceId d.senderEmail d.senderName s1).1
    let evStop := (handleUserStopTyping d.workspaceId d.senderEmail d.senderName s1).2
    (s2, ChatEvent.newMessageBroadcast ws (compressMessage newMessage) :: evStop)

/-- Sequential processing of a list of new_message sends; each element carries
the payload plus the server-assigned id and timestamp. -/
def sendMessages (sends : List (MessageData × String × String)) (s : ChatState) :
    ChatState :=
  sends.foldl (fun st p => (handleNewMessage p.1 p.2.1 p.2.2 st).1) s

/-- Empty chat state at process start. -/
def chatInit : ChatState := {}

theorem jsGet_map_update (k : String) (v : α) (l : List (String × α))
    (h : (l.any fun p => p.1 == k) = true) :
    jsGet k (l.map fun p => if p.1 == k then (k, v) else p) = some v := by
  induction l with
  | nil => simp at h
  | cons p rest ih =>
    obtain ⟨k', v'⟩ := p
    rw [List.map_cons]
    by_cases h1 : (k' == k) = true
    · simp only [h1, if_true]
      rw [jsGet_cons]
      simp
    · rw [if_neg h1, jsGet_cons, if_neg h1]
      refine ih ?_
      simpa [List.any_cons, h1] using h

theorem jsGet_append_missing (k : String) (v : α) (l : List (String × α))
    (h : (l.any fun p => p.1 == k) = false) :
    jsGet k (l ++ [(k, v)]) = some v := by
  induction l with
  | nil => simp [jsGet, List.find?]
  | cons p rest ih =>
    obtain ⟨k', v'⟩ := p
    simp only [List.any_cons, Bool.or_eq_false_iff] at h
    rw [List.cons_append, jsGet_cons, if_neg (by simp [h.1])]
    exact ih h.2

theorem jsGet_set_self (k : String) (v : α) (l : List (String × α)) :
    jsGet k (jsSet k v l) = some v := by
  simp only [jsSet]
  by_cases h : (l.any fun p => p.1 == k) = true
  · rw [if_pos h]
    exact jsGet_map_update k v l h
  · rw [if_neg h]
    exact jsGet_append_missing k v l (Bool.eq_false_iff.mpr h)

theorem jsGetD_set_self (k : String) (v : List β) (l : List (String × List β)) :
    jsGetD k (jsSet k v l) [] = v := by
  simp [jsGetD, jsGet_set_self]

theorem drop_window_append (n : Nat) (xs ys : List α) :
    ((xs.drop (xs.length - n) ++ ys).drop
      ((xs.drop (xs.length - n) ++ ys).length - n)) =
    (xs ++ ys).drop ((xs ++ ys).length - n) := by
  have hk : xs.length - n ≤ xs.length := Nat.sub_le _ _
  rw [← List.drop_append_of_le_length hk, List.drop_drop]
  congr 1
  simp only [List.length_append, List.length_drop]
  omega

theorem drop_window_length (n : Nat) (xs : List α) :
    (xs.drop (xs.length - n)).length = min xs.length n := by
  simp only [List.length_drop]
  omega

theorem trim_eq_drop_window (l : List ChatMessage) :
    (if l.length > MESSAGE_LIMIT then l.drop (l.length - MESSAGE_LIMIT) else l) =
      l.drop (l.length - MESSAGE_LIMIT) := by
  split
  · rfl
  · have : l.length - MESSAGE_LIMIT = 0 := by omega
    simp [this]

theorem stopTyping_preserves_messages (a b c : Option String) (s : ChatState) :
    (handleUserStopTyping a b c s).1.workspaceMessages = s.workspaceMessages ∧
    (handleUserStopTyping a b c s).1.redisMessages = s.redisMessages := by
  rw [handleUserStopTyping]
  split <;> simp

theorem sendMessages_window_aux (ws : String) (hws : ws ≠ "")
    (sends : List (MessageData × String × String)) :
    ∀ (s : ChatState) (L : List ChatMessage),
    (∀ p ∈ sends, p.1.workspaceId = some ws ∧ jsTruthyS p.1.content = true ∧
      jsTruthyS p.1.senderEmail = true) →
    jsGetD ws s.workspaceMessages [] = L →
    jsGetD ws s.redisMessages [] = L →
    L.length ≤ MESSAGE_LIMIT →
    jsGetD ws (sendMessages sends s).workspaceMessages [] =
        (L ++ sends.map (fun p => mkChatMessage p.1 p.2.1 p.2.2)).drop
          ((L ++ sends.map (fun p => mkChatMessage p.1 p.2.1 p.2.2)).length -
            MESSAGE_LIMIT)
      ∧ jsGetD ws (sendMessages sends s).redisMessages [] =
        (L ++ sends.map (fun p => mkChatMessage p.1 p.2.1 p.2.2)).drop
          ((L ++ sends.map (fun p => mkChatMessage p.1 p.2.1 p.2.2)).length -
            MESSAGE_LIMIT) := by
  induction sends with
  | nil =>
    intro s L hv hl hr hlen
    have hz : L.length - MESSAGE_LIMIT = 0 := by omega
    simp [sendMessages, hl, hr, hz]
  | cons p rest ih =>
    intro s L hv hl hr hlen
    obtain ⟨hw, hc, he⟩ := hv p (List.mem_cons_self _ _)
    have hbne : (ws == "") = false := beq_eq_false_iff_ne.mpr hws
    have hcond : (!(jsTruthyS (some ws) && jsTruthyS p.1.content &&
        jsTruthyS p.1.senderEmail)) = false := by
      have h1 : jsTruthyS (some ws) = true := by
        simp [jsTruthyS, bne, hbne]
      rw [h1, hc, he]
      rfl
    have hpres := stopTyping_preserves_messages (some ws) p.1.senderEmail
      p.1.senderName
    have hget1 : jsGetD ws (handleNewMessage p.1 p.2.1 p.2.2 s).1.workspaceMessages
        [] = (L ++ [mkChatMessage p.1 p.2.1 p.2.2]).drop
          ((L ++ [mkChatMessage p.1 p.2.1 p.2.2]).length - MESSAGE_LIMIT) := by
      simp only [handleNewMessage, hw, Option.getD_some, hcond,
        Bool.false_eq_true, if_false]
      rw [(hpres _).1]
      simp only [jsGetD_set_self, hl]
      rw [trim_eq_drop_window]
    have hget2 : jsGetD ws (handleNewMessage p.1 p.2.1 p.2.2 s).1.redisMessages
        [] = (L ++ [mkChatMessage p.1 p.2.1 p.2.2]).drop
          ((L ++ [mkChatMessage p.1 p.2.1 p.2.2]).length - MESSAGE_LIMIT) := by
      simp only [handleNewMessage, hw, Option.getD_some, hcond,
        Bool.false_eq_true, if_false]
      rw [(hpres _).2]
      simp only [jsGetD_set_self, hr]
      rw [trim_eq_drop_window]
    have hlen2 : ((L ++ [mkChatMessage p.1 p.2.1 p.2.2]).drop
        ((L ++ [mkChatMessage p.1 p.2.1 p.2.2]).length - MESSAGE_LIMIT)).length ≤
          MESSAGE_LIMIT := by
      rw [drop_window_length]
      exact Nat.min_le_right _ _
    have hrest := ih ((handleNewMessage p.1 p.2.1 p.2.2 s).1) _
      (fun q hq => hv q (List.mem_cons_of_mem _ hq)) hget1 hget2 hlen2
    have hsend : sendMessages (p :: rest) s =
        sendMessages rest ((handleNewMessage p.1 p.2.1 p.2.2 s).1) := rfl
    rw [hsend]
    have hassoc : (L ++ [mkChatMessage p.1 p.2.1 p.2.2]) ++
        rest.map (fun q => mkChatMessage q.1 q.2.1 q.2.2) =
        L ++ (p :: rest).map (fun q => mkChatMessage q.1 q.2.1 q.2.2) := by
      simp [List.append_assoc]
    constructor
    · rw [hrest.1, drop_window_append, hassoc]
    · rw [hrest.2, drop_window_append, hassoc]

/-- C3: after N valid new_message sends to one workspace, starting from the
empty state, the local deque and the shared-store list both hold exactly the
last MESSAGE_LIMIT of the N constructed messages in send order, hence have
length min N MESSAGE_LIMIT, with MESSAGE_LIMIT = 100. -/
theorem chat_history_bound (ws : String) (hws : ws ≠ "")
    (sends : List (MessageData × String × String))
    (hvalid : ∀ p ∈ sends, p.1.workspaceId = some ws ∧
      jsTruthyS p.1.content = true ∧ jsTruthyS p.1.senderEmail = true) :
    MESSAGE_LIMIT = 100
    ∧ jsGetD ws (sendMessages sends chatInit).workspaceMessages [] =
        (sends.map (fun p => mkChatMessage p.1 p.2.1 p.2.2)).drop
          (sends.length - MESSAGE_LIMIT)
    ∧ jsGetD ws (sendMessages sends chatInit).redisMessages [] =
        (sends.map (fun p => mkChatMessage p.1 p.2.1 p.2.2)).drop
          (sends.length - MESSAGE_LIMIT)
    ∧ (jsGetD ws (sendMessages sends chatInit).workspaceMessages []).length =
        min sends.length MESSAGE_LIMIT
    ∧ (jsGetD ws (sendMessages sends chatInit).redisMessages []).length =
        min sends.length MESSAGE_LIMIT := by
  obtain ⟨h1, h2⟩ := sendMessages_window_aux ws hws sends chatInit [] hvalid rfl
    rfl (by simp)
  have e1 : jsGetD ws (sendMessages sends chatInit).workspaceMessages [] =
      (sends.map (fun p => mkChatMessage p.1 p.2.1 p.2.2)).drop
        (sends.length - MESSAGE_LIMIT) := by
    simpa using h1
  have e2 : jsGetD ws (sendMessages sends chatInit).redisMessages [] =
      (sends.map (fun p => mkChatMessage p.1 p.2.1 p.2.2)).drop
        (sends.length - MESSAGE_LIMIT) := by
    simpa using h2
  refine ⟨rfl, e1, e2, ?_, ?_⟩
  · rw [e1]
    simp only [List.length_drop, List.length_map]
    omega
  · rw [e2]
    simp only [List.length_drop, List.length_map]
    omega

/-- Valid new_message payload used by concrete witnesses. -/
def chatMsgData : MessageData :=
  { workspaceId := some "w1", senderEmail := some "a@x", content := some "hi" }

/-- Two concrete sends with server ids 1 and 2. -/
def chatSends : List (MessageData × String × String) :=
  [(chatMsgData, "1", "t1"), (chatMsgData, "2", "t2")]

/-- C3 witness: the history bound applied to two concrete sends. -/
theorem chat_history_bound_witness :
    (jsGetD "w1" (sendMessages chatSends chatInit).workspaceMessages []).length =
      min chatSends.length MESSAGE_LIMIT
    ∧ (jsGetD "w1" (sendMessages chatSends chatInit).redisMessages []).length =
      min chatSends.length MESSAGE_LIMIT :=
  ⟨(chat_history_bound "w1" (by decide) chatSends (by decide)).2.2.2.1,
   (chat_history_bound "w1" (by decide) chatSends (by decide)).2.2.2.2⟩

theorem getLast_drop_window (xs : List α) (m : α) (n : Nat) (hn : 0 < n) :
    ((xs ++ [m]).drop ((xs ++ [m]).length - n)).getLast? = some m := by
  have hk : (xs ++ [m]).length - n ≤ xs.length := by
    simp only [List.length_append, List.length_cons, List.length_nil]
    omega
  rw [List.drop_append_of_le_length hk]
  exact List.getLast?_concat _

/-- C8: a new_message payload in which workspaceId, senderEmail or content is
missing (absent or empty, which JavaScript treats as falsy) makes the handler
emit exactly one typed error event to the sending session, broadcast nothing
to the room, and leave the whole chat state, both stores included, unchanged.
With all required fields present, the constructed message is stored as the
last entry of the local deque and of the shared list, and its compressed form
is broadcast to the workspace room. -/
theorem new_message_validation (d : MessageData) (msgId ts : String)
    (s : ChatState) :
    ((jsTruthyS d.workspaceId && jsTruthyS d.content &&
        jsTruthyS d.senderEmail) = false →
      handleNewMessage d msgId ts s =
        (s, [ChatEvent.errorToSender "Datos de mensaje incompletos"]))
    ∧ ((jsTruthyS d.workspaceId && jsTruthyS d.content &&
        jsTruthyS d.senderEmail) = true →
      (jsGetD (d.workspaceId.getD "")
          (handleNewMessage d msgId ts s).1.workspaceMessages []).getLast? =
        some (mkChatMessage d msgId ts)
      ∧ (jsGetD (d.workspaceId.getD "")
          (handleNewMessage d msgId ts s).1.redisMessages []).getLast? =
        some (mkChatMessage d msgId ts)
      ∧ (handleNewMessage d msgId ts s).2.head? =
        some (ChatEvent.newMessageBroadcast (d.workspaceId.getD "")
          (compressMessage (mkChatMessage d msgId ts)))) := by
  constructor
  · intro h
    have hcond : (!(jsTruthyS d.workspaceId && jsTruthyS d.content &&
        jsTruthyS d.senderEmail)) = true := by
      rw [h]
      rfl
    simp [handleNewMessage, hcond]
  · intro h
    have hcond : (!(jsTruthyS d.workspaceId && jsTruthyS d.content &&
        jsTruthyS d.senderEmail)) = false := by
      rw [h]
      rfl
    refine ⟨?_, ?_, ?_⟩
    · simp only [handleNewMessage, hcond, Bool.false_eq_true, if_false]
      rw [(stopTyping_preserves_messages _ _ _ _).1]
      simp only [jsGetD_set_self]
      rw [trim_eq_drop_window]
      exact getLast_drop_window _ _ _ (by decide)
    · simp only [handleNewMessage, hcond, Bool.false_eq_true, if_false]
      rw [(stopTyping_preserves_messages _ _ _ _).2]
      simp only [jsGetD_set_self]
      rw [trim_eq_drop_window]
      exact getLast_drop_window _ _ _ (by decide)
    · simp only [handleNewMessage, hcond, Bool.false_eq_true, if_false]
      rfl

/-- C8 witness: the validation theorem applied at the empty payload and at a
concrete valid payload. -/
theorem new_message_validation_witness :
    handleNewMessage {} "1" "t" chatInit =
      (chatInit, [ChatEvent.errorToSender "Datos de mensaje incompletos"])
    ∧ (jsGetD (chatMsgData.workspaceId.getD "")
        (handleNewMessage chatMsgData "1" "t" chatInit).1.workspaceMessages
          []).getLast? = some (mkChatMessage chatMsgData "1" "t") :=
  ⟨(new_message_validation {} "1" "t" chatInit).1 (by decide),
   ((new_message_validation chatMsgData "1" "t" chatInit).2 (by decide)).1⟩

/-! ## Redis shared-state client (RedisService with circuit breaker) -/

/-- Consecutive failures that open the circuit breaker. -/
def FAILURE_THRESHOLD : Nat := 5

/-- Milliseconds the breaker stays open before a retry is allowed. -/
def RESET_TIMEOUT : Nat := 30000

/-- Local-cache entry: value plus absolute expiry instant. -/
structure CacheEntry (α : Type) where
  value : α
  expiry : Nat
deriving DecidableEq, Repr

/-- Connection, circuit-breaker and local-cache state of the RedisService
singleton. Values already carry their parsed form, so serialization is the
identity here. -/
structure RedisState (α : Type) where
  isConnected : Bool := false
  failureCount : Nat := 0
  circuitOpen : Bool := false
  circuitResetTime : Nat := 0
  cacheEnabled : Bool := true
  cacheTTL : Nat := 60000
  localCache : List (String × CacheEntry α) := []
  cacheHits : Nat := 0
  cacheMisses : Nat := 0
deriving DecidableEq, Repr

/-- RedisService._handleFailure: bump the sliding failure counter and open the
breaker for RESET_TIMEOUT once it reaches FAILURE_THRESHOLD. -/
def handleFailure (now : Nat) (s : RedisState α) : RedisState α :=
  let fc := s.failureCount + 1
  if fc ≥ FAILURE_THRESHOLD then
    { s with
        failureCount := fc
        circuitOpen := true
        circuitResetTime := now + RESET_TIMEOUT }
  else
    { s with failureCount := fc }

/-- RedisService._checkCircuitBreaker: an open breaker blocks operations until
strictly after the reset instant; the first check after it closes the breaker
and clears the failure counter. -/
def checkCircuitBreaker (now : Nat) (s : RedisState α) : RedisState α × Bool :=
  if s.circuitOpen then
    if now > s.circuitResetTime then
      ({ s with circuitOpen := false, failureCount := 0 }, true)
    else
      (s, false)
  else
    (s, true)

/-- Outcome of a store operation: final client state, returned value, and
whether the remote store was contacted at all. -/
structure OpResult (α : Type) (β : Type) where
  state : RedisState α
  result : β
  contactedStore : Bool
deriving DecidableEq, Repr

/-- RedisService.set: blocked without contacting the store when disconnected
or when the breaker check fails; otherwise the write is attempted, updating
the local cache on success and feeding the failure counter on error. storeOk
tells whether the remote write succeeds. -/
def redisSet (now : Nat) (key : String) (v : α) (storeOk : Bool)
    (s : RedisState α) : OpResult α Bool :=
  if !s.isConnected then
    ⟨s, false, false⟩
  else
    let checked := checkCircuitBreaker now s
    if !checked.2 then
      ⟨checked.1, false, false⟩
    else if storeOk then
      let cache2 := jsSet key ⟨v, now + checked.1.cacheTTL⟩ checked.1.localCache
      let s2 := if checked.1.cacheEnabled then
        { checked.1 with localCache := cache2 } else checked.1
      ⟨s2, true, true⟩
    else
      ⟨handleFailure now checked.1, false, true⟩

/-- Remote part of RedisService.get, reached on a cache miss: blocked without
contacting the store when disconnected or when the breaker check fails;
otherwise the read is attempted. storeVal is the value held by the remote
store for the key, storeOk whether the transport call succeeds. -/
def redisGetRemote (now : Nat) (key : String) (storeOk : Bool)
    (storeVal : Option α) (s : RedisState α) : OpResult α (Option α) :=
  if !s.isConnected then
    ⟨s, none, false⟩
  else
    let checked := checkCircuitBreaker now s
    if !checked.2 then
      ⟨checked.1, none, false⟩
    else if !storeOk then
      ⟨handleFailure now checked.1, none, true⟩
    else
      match storeVal with
      | none => ⟨checked.1, none, true⟩
      | some v =>
        let cache2 := jsSet key ⟨v, now + checked.1.cacheTTL⟩
          checked.1.localCache
        let s2 := if checked.1.cacheEnabled then
          { checked.1 with localCache := cache2 } else checked.1
        ⟨s2, some v, true⟩

/-- Result of RedisService.get, with the extra flag telling whether the value
was served from the local cache. -/
structure GetResult (α : Type) where
  state : RedisState α
  result : Option α
  servedFromCache : Bool
  contactedStore : Bool
deriving DecidableEq, Repr

/-- RedisService.get: serve an unexpired cached entry when the cache is
enabled and no bypass is requested, counting a hit; otherwise count a miss and
fall through to the remote read. -/
def redisGet (now : Nat) (key : String) (bypassCache : Bool) (storeOk : Bool)
    (storeVal : Option α) (s : RedisState α) : GetResult α :=
  if s.cacheEnabled && !bypassCache then
    match jsGet key s.localCache with
    | some c =>
      if c.expiry > now then
        ⟨{ s with cacheHits := s.cacheHits + 1 }, some c.value, true, false⟩
      else
        let r := redisGetRemote now key storeOk storeVal
          { s with cacheMisses := s.cacheMisses + 1 }
        ⟨r.state, r.result, false, r.contactedStore⟩
    | none =>
      let r := redisGetRemote now key storeOk storeVal
        { s with cacheMisses := s.cacheMisses + 1 }
      ⟨r.state, r.result, false, r.contactedStore⟩
  else
    let r := redisGetRemote now key storeOk storeVal s
    ⟨r.state, r.result, false, r.contactedStore⟩

/-- RedisService.delete: the key is evicted from the local cache first, before
the connection state or the circuit breaker are consulted; only then is the
remote deletion attempted. storeOk tells whether the remote delete succeeds. -/
def redisDelete (now : Nat) (key : String) (storeOk : Bool)
    (s : RedisState α) : OpResult α Bool :=
  let s0 := if s.cacheEnabled then
    { s with localCache := jsDelete key s.localCache } else s
  if !s0.isConnected then
    ⟨s0, false, false⟩
  else
    let checked := checkCircuitBreaker now s0
    if !checked.2 then
      ⟨checked.1, false, false⟩
    else if storeOk then
      ⟨checked.1, true, true⟩
    else
      ⟨handleFailure now checked.1, false, true⟩

/-- Outcome of the PING issued by healthCheck: measured round-trip time on
success, or a transport error. -/
inductive PingOutcome where
  | ok (rtt : Nat)
  | err (msg : String)
deriving DecidableEq, Repr

/-- Result object of RedisService.healthCheck. -/
structure HealthResult where
  status : String
  responseTime : Nat
  error : Option String
deriving DecidableEq, Repr

/-- RedisService.healthCheck: unhealthy when disconnected or when the breaker
is open, without pinging; otherwise ping, report unhealthy on error (feeding
the failure counter), degraded when the round trip exceeds 100 ms, healthy
otherwise. -/
def healthCheck (now : Nat) (ping : PingOutcome) (s : RedisState α) :
    HealthResult × RedisState α :=
  if !s.isConnected || s.circuitOpen then
    ({ status := "unhealthy", responseTime := 0,
       error := some (if s.circuitOpen then "Circuit breaker abierto"
         else "No conectado") }, s)
  else
    match ping with
    | .ok rtt =>
      ({ status := if rtt > 100 then "degraded" else "healthy",
         responseTime := rtt, error := none }, s)
    | .err m =>
      ({ status := "unhealthy", responseTime := 0, error := some m },
       handleFailure now s)

theorem redisSet_fail_closed (s : RedisState α) (t : Nat) (k : String) (v : α)
    (hconn : s.isConnected = true) (hopen : s.circuitOpen = false)
    (hlt : s.failureCount + 1 < FAILURE_THRESHOLD) :
    (redisSet t k v false s).state =
      { s with failureCount := s.failureCount + 1 } := by
  simp only [redisSet, hconn, Bool.not_true, Bool.false_eq_true, if_false,
    checkCircuitBreaker, hopen, Bool.not_false, if_true, handleFailure]
  rw [if_neg (by omega)]

theorem redisSet_fail_opens (s : RedisState α) (t : Nat) (k : String) (v : α)
    (hconn : s.isConnected = true) (hopen : s.circuitOpen = false)
    (hge : s.failureCount + 1 ≥ FAILURE_THRESHOLD) :
    (redisSet t k v false s).state =
      { s with
          failureCount := s.failureCount + 1
          circuitOpen := true
          circuitResetTime := t + RESET_TIMEOUT } := by
  simp only [redisSet, hconn, Bool.not_true, Bool.false_eq_true, if_false,
    checkCircuitBreaker, hopen, Bool.not_false, if_true, handleFailure]
  rw [if_pos (by omega)]

/-- Five consecutive failing set operations starting from a given state. -/
def fiveFailedSets (s0 : RedisState α) (t1 t2 t3 t4 t5 : Nat) (k : String)
    (v : α) : RedisState α :=
  (redisSet t5 k v false
    (redisSet t4 k v false
      (redisSet t3 k v false
        (redisSet t2 k v false
          (redisSet t1 k v false s0).state).state).state).state).state

theorem fiveFailedSets_spec (s0 : RedisState α) (t1 t2 t3 t4 t5 : Nat)
    (k : String) (v : α) (hconn : s0.isConnected = true)
    (hopen : s0.circuitOpen = false) (hfc : s0.failureCount = 0) :
    fiveFailedSets s0 t1 t2 t3 t4 t5 k v =
      { s0 with
          failureCount := FAILURE_THRESHOLD
          circuitOpen := true
          circuitResetTime := t5 + RESET_TIMEOUT } := by
  have h1 : (redisSet t1 k v false s0).state = { s0 with failureCount := 1 } := by
    rw [redisSet_fail_closed s0 t1 k v hconn hopen (by rw [hfc]; decide), hfc]
  have h2 : (redisSet t2 k v false
      ({ s0 with failureCount := 1 } : RedisState α)).state =
      { s0 with failureCount := 2 } := by
    rw [redisSet_fail_closed ({ s0 with failureCount := 1 }) t2 k v hconn
      hopen (by show (1 : Nat) + 1 < FAILURE_THRESHOLD; decide)]
  have h3 : (redisSet t3 k v false
      ({ s0 with failureCount := 2 } : RedisState α)).state =
      { s0 with failureCount := 3 } := by
    rw [redisSet_fail_closed ({ s0 with failureCount := 2 }) t3 k v hconn
      hopen (by show (2 : Nat) + 1 < FAILURE_THRESHOLD; decide)]
  have h4 : (redisSet t4 k v false
      ({ s0 with failureCount := 3 } : RedisState α)).state =
      { s0 with failureCount := 4 } := by
    rw [redisSet_fail_closed ({ s0 with failureCount := 3 }) t4 k v hconn
      hopen (by show (3 : Nat) + 1 < FAILURE_THRESHOLD; decide)]
  have h5 : (redisSet t5 k v false
      ({ s0 with failureCount := 4 } : RedisState α)).state =
      { s0 with
          failureCount := FAILURE_THRESHOLD
          circuitOpen := true
          circuitResetTime := t5 + RESET_TIMEOUT } := by
    rw [redisSet_fail_opens ({ s0 with failureCount := 4 }) t5 k v hconn
      hopen (by show (4 : Nat) + 1 ≥ FAILURE_THRESHOLD; decide)]
    rfl
  rw [fiveFailedSets, h1, h2, h3, h4, h5]

theorem redisSet_blocked (s : RedisState α) (t : Nat) (k : String) (v : α)
    (so : Bool) (hconn : s.isConnected = true) (hopen : s.circuitOpen = true)
    (ht : ¬ t > s.circuitResetTime) :
    redisSet t k v so s = ⟨s, false, false⟩ := by
  simp only [redisSet, hconn, Bool.not_true, Bool.false_eq_true, if_false,
    checkCircuitBreaker, hopen, if_true]
  rw [if_neg ht]
  simp

theorem redisSet_after_reset (s : RedisState α) (t : Nat) (k : String) (v : α)
    (so : Bool) (hconn : s.isConnected = true) (hopen : s.circuitOpen = true)
    (ht : t > s.circuitResetTime) :
    (redisSet t k v so s).contactedStore = true
    ∧ (redisSet t k v so s).state.circuitOpen = false
    ∧ (so = true → (redisSet t k v so s).state.failureCount = 0
        ∧ (redisSet t k v so s).result = true) := by
  have hch : checkCircuitBreaker t s =
      ({ s with circuitOpen := false, failureCount := 0 }, true) := by
    simp only [checkCircuitBreaker, hopen, if_true]
    rw [if_pos ht]
  cases so with
  | true =>
    refine ⟨?_, ?_, fun _ => ⟨?_, ?_⟩⟩
    all_goals simp [redisSet, hconn, hch]
    all_goals try (split <;> simp)
  | false =>
    refine ⟨?_, ?_, fun h => absurd h (by simp)⟩
    all_goals simp [redisSet, hconn, hch, handleFailure, FAILURE_THRESHOLD]

theorem redisGetRemote_blocked (s : RedisState α) (t : Nat) (k : String)
    (so : Bool) (sv : Option α) (hconn : s.isConnected = true)
    (hopen : s.circuitOpen = true) (ht : ¬ t > s.circuitResetTime) :
    redisGetRemote t k so sv s = ⟨s, none, false⟩ := by
  simp only [redisGetRemote, hconn, Bool.not_true, Bool.false_eq_true, if_false,
    checkCircuitBreaker, hopen, if_true]
  rw [if_neg ht]
  simp

theorem redisGetRemote_after_reset (s : RedisState α) (t : Nat) (k : String)
    (so : Bool) (sv : Option α) (hconn : s.isConnected = true)
    (hopen : s.circuitOpen = true) (ht : t > s.circuitResetTime) :
    (redisGetRemote t k so sv s).contactedStore = true
    ∧ (redisGetRemote t k so sv s).state.circuitOpen = false
    ∧ (so = true → (redisGetRemote t k so sv s).state.failureCount = 0
        ∧ (redisGetRemote t k so sv s).result = sv) := by
  have hch : checkCircuitBreaker t s =
      ({ s with circuitOpen := false, failureCount := 0 }, true) := by
    simp only [checkCircuitBreaker, hopen, if_true]
    rw [if_pos ht]
  cases so with
  | true =>
    cases sv with
    | none =>
      refine ⟨?_, ?_, fun _ => ⟨?_, ?_⟩⟩ <;> simp [redisGetRemote, hconn, hch]
    | some v =>
      refine ⟨?_, ?_, fun _ => ⟨?_, ?_⟩⟩
      all_goals simp [redisGetRemote, hconn, hch]
      all_goals try (split <;> simp)
  | false =>
    refine ⟨?_, ?_, fun h => absurd h (by simp)⟩
    all_goals simp [redisGetRemote, hconn, hch, handleFailure, FAILURE_THRESHOLD]

/-- Every get is either served from the local cache, or behaves exactly as
the remote read from some state sharing the connection and breaker fields. -/
theorem redisGet_remote_cases (s : RedisState α) (now : Nat) (key : String)
    (bypass so : Bool) (sv : Option α) :
    (redisGet now key bypass so sv s).servedFromCache = true
    ∨ ∃ pre : RedisState α,
        pre.isConnected = s.isConnected ∧ pre.circuitOpen = s.circuitOpen
        ∧ pre.circuitResetTime = s.circuitResetTime
        ∧ redisGet now key bypass so sv s =
            ⟨(redisGetRemote now key so sv pre).state,
             (redisGetRemote now key so sv pre).result, false,
             (redisGetRemote now key so sv pre).contactedStore⟩ := by
  by_cases hcb : (s.cacheEnabled && !bypass) = true
  · simp only [redisGet, hcb, if_true]
    cases hget : jsGet key s.localCache with
    | none =>
      right
      exact ⟨{ s with cacheMisses := s.cacheMisses + 1 }, rfl, rfl, rfl, rfl⟩
    | some c =>
      by_cases hexp : c.expiry > now
      · left
        dsimp only
        rw [if_pos hexp]
      · right
        refine ⟨{ s with cacheMisses := s.cacheMisses + 1 }, rfl, rfl, rfl, ?_⟩
        dsimp only
        rw [if_neg hexp]
  · simp only [redisGet, hcb, Bool.false_eq_true, if_false]
    right
    exact ⟨s, rfl, rfl, rfl, rfl⟩

/-- Client state whose cache holds key k from a successful set at instant 0,
after which five set operations failed at instants 1..5, leaving the breaker
open until instant 5 + RESET_TIMEOUT. -/
def cbWarmCacheState : RedisState Nat :=
  fiveFailedSets (redisSet 0 "k" 7 true { isConnected := true }).state
    1 2 3 4 5 "k2" 8

/-- C4 counterexample: with the breaker open after five consecutive
failures, a get of the warm-cached key k during the open window is served
from the local cache and returns the cached value 7 rather than the typed
failure none of get, even though the remote store holds 9; and the same get
issued strictly after the reset instant still contacts no store and leaves
the breaker open, so as first operation after the reset it neither closes
the breaker nor attempts the store. This refutes the claim as stated for
every operation. -/
theorem circuit_breaker_every_operation_cex :
    cbWarmCacheState.circuitOpen = true
    ∧ cbWarmCacheState.circuitResetTime = 5 + RESET_TIMEOUT
    ∧ (redisGet 100 "k" false true (some 9) cbWarmCacheState).servedFromCache
        = true
    ∧ (redisGet 100 "k" false true (some 9) cbWarmCacheState).result = some 7
    ∧ (some (7 : Nat) ≠ none)
    ∧ (redisGet 100 "k" false true (some 9) cbWarmCacheState).contactedStore
        = false
    ∧ 30010 > 5 + RESET_TIMEOUT
    ∧ (redisGet 30010 "k" false true (some 9) cbWarmCacheState).contactedStore
        = false
    ∧ (redisGet 30010 "k" false true (some 9)
        cbWarmCacheState).state.circuitOpen = true :=
  ⟨rfl, rfl, rfl, rfl, by decide, rfl, by decide, rfl, rfl⟩

/-- C4 (amended): starting connected with a closed breaker and a zero
failure counter, five consecutive failing set operations open the circuit
breaker with reset instant t5 + RESET_TIMEOUT and failure counter
FAILURE_THRESHOLD. Every operation invoked up to and including the reset
instant that is not served from the local cache returns its typed failure
value without contacting the store: sets return false with the state
unchanged, and non-cache-served gets return none with the breaker still
open. The exception is a get whose key holds a fresh cache entry: it is
served from the cache, also without contacting the store. The first
operation invoked strictly after the reset instant that is not served from
the cache closes the breaker, resets the failure counter to 0, and attempts
the store, succeeding when the store does. -/
theorem circuit_breaker_scoped_open_then_reset (s0 : RedisState α)
    (t1 t2 t3 t4 t5 : Nat) (k : String) (v : α)
    (hconn : s0.isConnected = true) (hopen : s0.circuitOpen = false)
    (hfc : s0.failureCount = 0) :
    (fiveFailedSets s0 t1 t2 t3 t4 t5 k v).circuitOpen = true
    ∧ (fiveFailedSets s0 t1 t2 t3 t4 t5 k v).failureCount = FAILURE_THRESHOLD
    ∧ (fiveFailedSets s0 t1 t2 t3 t4 t5 k v).circuitResetTime =
        t5 + RESET_TIMEOUT
    ∧ (∀ (t : Nat) (k2 : String) (v2 : α) (storeOk : Bool),
        t ≤ t5 + RESET_TIMEOUT →
        redisSet t k2 v2 storeOk (fiveFailedSets s0 t1 t2 t3 t4 t5 k v) =
          ⟨fiveFailedSets s0 t1 t2 t3 t4 t5 k v, false, false⟩)
    ∧ (∀ (t : Nat) (k2 : String) (bypass storeOk : Bool) (sv : Option α),
        t ≤ t5 + RESET_TIMEOUT →
        (redisGet t k2 bypass storeOk sv
            (fiveFailedSets s0 t1 t2 t3 t4 t5 k v)).servedFromCache = false →
        (redisGet t k2 bypass storeOk sv
            (fiveFailedSets s0 t1 t2 t3 t4 t5 k v)).result = none
        ∧ (redisGet t k2 bypass storeOk sv
            (fiveFailedSets s0 t1 t2 t3 t4 t5 k v)).contactedStore = false
        ∧ (redisGet t k2 bypass storeOk sv
            (fiveFailedSets s0 t1 t2 t3 t4 t5 k v)).state.circuitOpen = true)
    ∧ (∀ (t : Nat) (k2 : String) (storeOk : Bool) (sv : Option α)
        (c : CacheEntry α),
        (fiveFailedSets s0 t1 t2 t3 t4 t5 k v).cacheEnabled = true →
        jsGet k2 (fiveFailedSets s0 t1 t2 t3 t4 t5 k v).localCache = some c →
        c.expiry > t →
        (redisGet t k2 false storeOk sv
            (fiveFailedSets s0 t1 t2 t3 t4 t5 k v)).result = some c.value
        ∧ (redisGet t k2 false storeOk sv
            (fiveFailedSets s0 t1 t2 t3 t4 t5 k v)).servedFromCache = true
        ∧ (redisGet t k2 false storeOk sv
            (fiveFailedSets s0 t1 t2 t3 t4 t5 k v)).contactedStore = false)
    ∧ (∀ (t : Nat) (k2 : String) (v2 : α) (storeOk : Bool),
        t > t5 + RESET_TIMEOUT →
        (redisSet t k2 v2 storeOk
            (fiveFailedSets s0 t1 t2 t3 t4 t5 k v)).contactedStore = true
        ∧ (redisSet t k2 v2 storeOk
            (fiveFailedSets s0 t1 t2 t3 t4 t5 k v)).state.circuitOpen = false
        ∧ (storeOk = true →
            (redisSet t k2 v2 storeOk
              (fiveFailedSets s0 t1 t2 t3 t4 t5 k v)).state.failureCount = 0
            ∧ (redisSet t k2 v2 storeOk
                (fiveFailedSets s0 t1 t2 t3 t4 t5 k v)).result = true))
    ∧ (∀ (t : Nat) (k2 : String) (bypass storeOk : Bool) (sv : Option α),
        t > t5 + RESET_TIMEOUT →
        (redisGet t k2 bypass storeOk sv
            (fiveFailedSets s0 t1 t2 t3 t4 t5 k v)).servedFromCache = false →
        (redisGet t k2 bypass storeOk sv
            (fiveFailedSets s0 t1 t2 t3 t4 t5 k v)).contactedStore = true
        ∧ (redisGet t k2 bypass storeOk sv
            (fiveFailedSets s0 t1 t2 t3 t4 t5 k v)).state.circuitOpen = false
        ∧ (storeOk = true →
            (redisGet t k2 bypass storeOk sv
              (fiveFailedSets s0 t1 t2 t3 t4 t5 k v)).state.failureCount = 0
            ∧ (redisGet t k2 bypass storeOk sv
                (fiveFailedSets s0 t1 t2 t3 t4 t5 k v)).result = sv)) := by
  have hS := fiveFailedSets_spec s0 t1 t2 t3 t4 t5 k v hconn hopen hfc
  have hLconn : (fiveFailedSets s0 t1 t2 t3 t4 t5 k v).isConnected = true := by
    rw [hS]
    exact hconn
  have hLopen : (fiveFailedSets s0 t1 t2 t3 t4 t5 k v).circuitOpen = true := by
    rw [hS]
  have hLreset : (fiveFailedSets s0 t1 t2 t3 t4 t5 k v).circuitResetTime =
      t5 + RESET_TIMEOUT := by
    rw [hS]
  refine ⟨hLopen, by rw [hS], hLreset, ?_, ?_, ?_, ?_, ?_⟩
  · intro t k2 v2 storeOk ht
    exact redisSet_blocked _ t k2 v2 storeOk hLconn hLopen
      (by rw [hLreset]; omega)
  · intro t k2 bypass storeOk sv ht hserved
    rcases redisGet_remote_cases (fiveFailedSets s0 t1 t2 t3 t4 t5 k v) t k2
        bypass storeOk sv with hhit | ⟨pre, hpc, hpo, hpr, heq⟩
    · rw [hserved] at hhit
      exact absurd hhit (by simp)
    · have hblocked := redisGetRemote_blocked pre t k2 storeOk sv
        (hpc.trans hLconn) (hpo.trans hLopen) (by rw [hpr, hLreset]; omega)
      rw [heq, hblocked]
      exact ⟨rfl, rfl, hpo.trans hLopen⟩
  · intro t k2 storeOk sv c hce hget hexp
    simp only [redisGet, hce, hget, Bool.not_false, Bool.and_true,
      eq_self_iff_true, if_true]
    rw [if_pos hexp]
    exact ⟨rfl, rfl, rfl⟩
  · intro t k2 v2 storeOk ht
    exact redisSet_after_reset _ t k2 v2 storeOk hLconn hLopen
      (by rw [hLreset]; exact ht)
  · intro t k2 bypass storeOk sv ht hserved
    rcases redisGet_remote_cases (fiveFailedSets s0 t1 t2 t3 t4 t5 k v) t k2
        bypass storeOk sv with hhit | ⟨pre, hpc, hpo, hpr, heq⟩
    · rw [hserved] at hhit
      exact absurd hhit (by simp)
    · have hafter := redisGetRemote_after_reset pre t k2 storeOk sv
        (hpc.trans hLconn) (hpo.trans hLopen) (by rw [hpr, hLreset]; exact ht)
      rw [heq]
      exact ⟨hafter.1, hafter.2.1, hafter.2.2⟩

/-- Freshly connected client state used by concrete witnesses. -/
def redisConnState : RedisState Nat := { isConnected := true }

/-- C4 witness: the amended breaker theorem applied to a concrete run where
the five failures happen at instants 1..5, a set at instant 30005 and a
cache-missing get at instant 30004 are short-circuited, and a cache-missing
get at instant 30006 reaches the store again. -/
theorem circuit_breaker_scoped_open_then_reset_witness :
    (fiveFailedSets redisConnState 1 2 3 4 5 "k" 7).circuitOpen = true
    ∧ redisSet 30005 "k" 7 true (fiveFailedSets redisConnState 1 2 3 4 5 "k" 7) =
        ⟨fiveFailedSets redisConnState 1 2 3 4 5 "k" 7, false, false⟩
    ∧ (redisGet 30004 "k" false true (some 9)
        (fiveFailedSets redisConnState 1 2 3 4 5 "k" 7)).result = none
    ∧ (redisGet 30006 "k" false true (some 9)
        (fiveFailedSets redisConnState 1 2 3 4 5 "k" 7)).contactedStore =
          true :=
  ⟨(circuit_breaker_scoped_open_then_reset redisConnState 1 2 3 4 5 "k" 7 rfl
      rfl rfl).1,
   (circuit_breaker_scoped_open_then_reset redisConnState 1 2 3 4 5 "k" 7 rfl
      rfl rfl).2.2.2.1 30005 "k" 7 true (by decide),
   ((circuit_breaker_scoped_open_then_reset redisConnState 1 2 3 4 5 "k" 7 rfl
      rfl rfl).2.2.2.2.1 30004 "k" false true (some 9) (by decide) rfl).1,
   ((circuit_breaker_scoped_open_then_reset redisConnState 1 2 3 4 5 "k" 7 rfl
      rfl rfl).2.2.2.2.2.2.2 30006 "k" false true (some 9) (by decide)
        rfl).1⟩

/-- Connected, breaker-closed client state for health checks. -/
def redisHealthyState : RedisState Nat :=
  { isConnected := true, circuitOpen := false }

/-- C5 counterexample: with the client connected and the breaker closed, a
PING whose measured round trip is exactly 100 ms yields status healthy, not
degraded: the source marks degraded only strictly above 100 ms. -/
theorem healthCheck_exactly_100_cex :
    (healthCheck 0 (PingOutcome.ok 100) redisHealthyState).1.status = "healthy"
    ∧ "healthy" ≠ "degraded" := by
  refine ⟨rfl, by decide⟩

/-- C5, amended: healthCheck reports unhealthy whenever the breaker is open,
the client is not connected, or the PING errors; otherwise it reports healthy
when the measured round trip is at most 100 ms and degraded when it is
strictly greater than 100 ms (so a round trip of exactly 100 ms is healthy). -/
theorem healthCheck_status_classification (s : RedisState α) (now : Nat)
    (ping : PingOutcome) :
    ((s.circuitOpen = true ∨ s.isConnected = false) →
      (healthCheck now ping s).1.status = "unhealthy")
    ∧ (s.isConnected = true → s.circuitOpen = false →
        ∀ m, ping = PingOutcome.err m →
          (healthCheck now ping s).1.status = "unhealthy")
    ∧ (s.isConnected = true → s.circuitOpen = false →
        ∀ rtt, ping = PingOutcome.ok rtt →
          (rtt ≤ 100 → (healthCheck now ping s).1.status = "healthy")
          ∧ (rtt > 100 → (healthCheck now ping s).1.status = "degraded")) := by
  refine ⟨?_, ?_, ?_⟩
  · intro h
    rcases h with h | h
    · simp [healthCheck, h]
    · simp [healthCheck, h]
  · intro hconn hopen m hping
    subst hping
    simp [healthCheck, hconn, hopen]
  · intro hconn hopen rtt hping
    subst hping
    constructor
    · intro hle
      simp only [healthCheck, hconn, hopen, Bool.not_true, Bool.false_or,
        Bool.false_eq_true, if_false]
      rw [if_neg (by omega)]
    · intro hgt
      simp only [healthCheck, hconn, hopen, Bool.not_true, Bool.false_or,
        Bool.false_eq_true, if_false]
      rw [if_pos hgt]

/-- C5 witness: the classification applied to concrete pings at 100 ms and
101 ms against the healthy state. -/
theorem healthCheck_status_classification_witness :
    (healthCheck 0 (PingOutcome.ok 100) redisHealthyState).1.status = "healthy"
    ∧ (healthCheck 0 (PingOutcome.ok 101) redisHealthyState).1.status =
        "degraded" :=
  ⟨(((healthCheck_status_classification redisHealthyState 0
        (PingOutcome.ok 100)).2.2 rfl rfl 100 rfl).1 (by decide)),
   (((healthCheck_status_classification redisHealthyState 0
        (PingOutcome.ok 101)).2.2 rfl rfl 101 rfl).2 (by decide))⟩

theorem redisDelete_state_cache (s : RedisState α) (now : Nat) (key : String)
    (delOk : Bool) :
    (redisDelete now key delOk s).state.localCache =
      (if s.cacheEnabled = true then jsDelete key s.localCache
       else s.localCache) := by
  simp only [redisDelete, checkCircuitBreaker, handleFailure]
  repeat' split
  all_goals simp_all

theorem redisDelete_state_cacheEnabled (s : RedisState α) (now : Nat)
    (key : String) (delOk : Bool) :
    (redisDelete now key delOk s).state.cacheEnabled = s.cacheEnabled := by
  simp only [redisDelete, checkCircuitBreaker, handleFailure]
  repeat' split
  all_goals simp_all

theorem redisDelete_disconnected (s : RedisState α) (now : Nat) (key : String)
    (delOk : Bool) (hconn : s.isConnected = false) :
    (redisDelete now key delOk s).result = false
    ∧ (redisDelete now key delOk s).contactedStore = false := by
  constructor <;>
  · simp only [redisDelete]
    split <;> simp [hconn]

theorem redisGet_no_cache_hit_of_miss (s : RedisState α) (now : Nat)
    (key : String) (bypass storeOk : Bool) (storeVal : Option α)
    (h : s.cacheEnabled = true → jsGet key s.localCache = none) :
    (redisGet now key bypass storeOk storeVal s).servedFromCache = false := by
  by_cases hce : s.cacheEnabled = true
  · cases bypass with
    | true => simp [redisGet, hce]
    | false => simp [redisGet, hce, h hce]
  · have hce2 : s.cacheEnabled = false := by
      cases hcase : s.cacheEnabled
      · rfl
      · exact absurd hcase hce
    simp [redisGet, hce2]

/-- C10: delete evicts the key from the local cache before the connection
state or the circuit breaker is consulted, so the eviction happens even when
delete returns the failure value false because of a disconnected client;
consequently a get of the same key issued after the delete is never served
from the local cache, whatever the delete returned and whatever the remote
store holds. -/
theorem delete_evicts_cache_before_store_checks (s : RedisState α)
    (now now2 : Nat) (key : String) (delOk bypass storeOk : Bool)
    (storeVal : Option α) :
    (s.cacheEnabled = true →
      jsGet key (redisDelete now key delOk s).state.localCache = none)
    ∧ (s.isConnected = false →
        (redisDelete now key delOk s).result = false
        ∧ (redisDelete now key delOk s).contactedStore = false)
    ∧ (redisGet now2 key bypass storeOk storeVal
        (redisDelete now key delOk s).state).servedFromCache = false := by
  have hcache := redisDelete_state_cache s now key delOk
  have hen := redisDelete_state_cacheEnabled s now key delOk
  have hevict : s.cacheEnabled = true →
      jsGet key (redisDelete now key delOk s).state.localCache = none := by
    intro hce
    rw [hcache, if_pos hce]
    exact jsGet_delete_self key s.localCache
  refine ⟨hevict, fun hconn => redisDelete_disconnected s now key delOk hconn,
    ?_⟩
  refine redisGet_no_cache_hit_of_miss _ now2 key bypass storeOk storeVal ?_
  intro hce
  exact hevict (by rw [← hen]; exact hce)

/-- C10 witness: a concrete disconnected client whose cache holds the key;
delete returns false yet the following get is a cache miss. -/
def redisCachedState : RedisState Nat :=
  { isConnected := false, localCache := [("k", ⟨7, 1000⟩)] }

/-- C10 witness theorem applying the eviction theorem at redisCachedState. -/
theorem delete_evicts_cache_before_store_checks_witness :
    jsGet "k" (redisDelete 0 "k" true redisCachedState).state.localCache = none
    ∧ (redisDelete 0 "k" true redisCachedState).result = false
    ∧ (redisGet 5 "k" false true (some 9)
        (redisDelete 0 "k" true redisCachedState).state).servedFromCache =
          false :=
  ⟨(delete_evicts_cache_before_store_checks redisCachedState 0 5 "k" true
      false true (some 9)).1 rfl,
   ((delete_evicts_cache_before_store_checks redisCachedState 0 5 "k" true
      false true (some 9)).2.1 rfl).1,
   (delete_evicts_cache_before_store_checks redisCachedState 0 5 "k" true
      false true (some 9)).2.2⟩

/-! ## Auth middleware and per-IP rate limiter (auth.js) -/

/-- Maximum handshakes per IP per window. -/
def MAX_CONNECTIONS_PER_MINUTE : Nat := 60

/-- Rate-limit window in milliseconds. -/
def RATE_LIMIT_WINDOW : Nat := 60000

/-- Rate-limit bucket for one IP: count and window start. -/
structure RateData where
  count : Nat
  lastReset : Nat
deriving DecidableEq, Repr

/-- checkRateLimit from auth.js: true means the IP exceeded the limit. The
argument is the rateLimitMap entry for the IP, none when absent. Truncated
natural subtraction matches the JavaScript comparison for a monotone clock. -/
def checkRateLimit (now : Nat) (st : Option RateData) :
    Bool × Option RateData :=
  match st with
  | none => (false, some ⟨1, now⟩)
  | some d =>
    if now - d.lastReset > RATE_LIMIT_WINDOW then
      (false, some ⟨1, now⟩)
    else
      (decide (d.count + 1 > MAX_CONNECTIONS_PER_MINUTE),
       some ⟨d.count + 1, d.lastReset⟩)

/-- Decoded token claims. -/
structure JwtPayload where
  id : Option String := none
  email : Option String := none
  name : Option String := none
deriving DecidableEq, Repr

/-- Abstract bearer token: its claims plus the verification-relevant facts
about it (algorithm, signature, age within the one-hour maximum). -/
structure TokenInfo where
  payload : JwtPayload
  algIsHS256 : Bool
  signatureValid : Bool
  withinMaxAge : Bool
deriving DecidableEq, Repr

/-- Failure modes of jwt.verify distinguished by the middleware. -/
inductive JwtError where
  | tokenExpired
  | jsonWebTokenError
deriving DecidableEq, Repr

/-- Model of jwt.verify with the symmetric secret, the HS256 allow-list and a
one-hour maxAge: JsonWebTokenError for a wrong algorithm or bad signature,
TokenExpiredError for a token that is expired or older than one hour. -/
def jwtVerify (t : TokenInfo) : Except JwtError JwtPayload :=
  if !t.algIsHS256 || !t.signatureValid then
    Except.error JwtError.jsonWebTokenError
  else if !t.withinMaxAge then
    Except.error JwtError.tokenExpired
  else
    Except.ok t.payload

/-- Handshake rejection reasons issued by authenticateSocket. -/
inductive AuthError where
  | rateLimited
  | missingToken
  | revoked
  | expired
  | invalid
  | incomplete
deriving DecidableEq, Repr

/-- Incoming handshake: optional bearer token, resolved client IP, and the
current instant. -/
structure Handshake where
  token : Option TokenInfo
  clientIp : String
  now : Nat
deriving DecidableEq, Repr

/-- Data attached to the socket on admission. -/
structure AuthedSession where
  user : JwtPayload
  connectedAt : Nat
  clientIp : String
deriving DecidableEq, Repr

/-- authenticateSocket from auth.js: rate limit, token presence, revocation
lookup in the shared store (the blacklisted argument is that lookup result),
jwt verification, id and email claim check, then attachment of the decoded
subject, connection time and client IP. -/
def authenticateSocket (h : Handshake) (blacklisted : Bool)
    (rl : Option RateData) :
    Except AuthError AuthedSession × Option RateData :=
  let checked := checkRateLimit h.now rl
  if checked.1 then
    (Except.error AuthError.rateLimited, checked.2)
  else
    match h.token with
    | none => (Except.error AuthError.missingToken, checked.2)
    | some t =>
      if blacklisted then
        (Except.error AuthError.revoked, checked.2)
      else
        match jwtVerify t with
        | Except.error JwtError.tokenExpired =>
          (Except.error AuthError.expired, checked.2)
        | Except.error JwtError.jsonWebTokenError =>
          (Except.error AuthError.invalid, checked.2)
        | Except.ok payload =>
          if !(jsTruthyS payload.id && jsTruthyS payload.email) then
            (Except.error AuthError.incomplete, checked.2)
          else
            (Except.ok ⟨payload, h.now, h.clientIp⟩, checked.2)

theorem jwtVerify_ok (t : TokenInfo) (p : JwtPayload)
    (h : jwtVerify t = Except.ok p) : p = t.payload := by
  simp only [jwtVerify] at h
  repeat' split at h
  all_goals simp_all

/-- C7: the handshake authenticator rejects every connection whose bearer
token is absent, blacklisted in the shared store, expired or older than one
hour, signed with an algorithm other than HS256, or whose decoded claims lack
a truthy id or email; and every admitted connection carries the decoded
subject, connection time and client IP on the session. -/
theorem authenticateSocket_guards (h : Handshake) (bl : Bool)
    (rl : Option RateData) :
    (h.token = none → ∃ e, (authenticateSocket h bl rl).1 = Except.error e)
    ∧ (∀ t, h.token = some t → bl = true →
        ∃ e, (authenticateSocket h bl rl).1 = Except.error e)
    ∧ (∀ t, h.token = some t → t.withinMaxAge = false →
        ∃ e, (authenticateSocket h bl rl).1 = Except.error e)
    ∧ (∀ t, h.token = some t → t.algIsHS256 = false →
        ∃ e, (authenticateSocket h bl rl).1 = Except.error e)
    ∧ (∀ t, h.token = some t →
        (jsTruthyS t.payload.id = false ∨ jsTruthyS t.payload.email = false) →
        ∃ e, (authenticateSocket h bl rl).1 = Except.error e)
    ∧ (∀ a, (authenticateSocket h bl rl).1 = Except.ok a →
        (∃ t, h.token = some t ∧ a.user = t.payload)
        ∧ a.connectedAt = h.now ∧ a.clientIp = h.clientIp) := by
  refine ⟨?_, ?_, ?_, ?_, ?_, ?_⟩
  · intro ht
    cases hb : (checkRateLimit h.now rl).1 with
    | false => exact ⟨AuthError.missingToken, by simp [authenticateSocket, ht, hb]⟩
    | true => exact ⟨AuthError.rateLimited, by simp [authenticateSocket, hb]⟩
  · intro t ht hbl
    subst hbl
    cases hb : (checkRateLimit h.now rl).1 with
    | false => exact ⟨AuthError.revoked, by simp [authenticateSocket, ht, hb]⟩
    | true => exact ⟨AuthError.rateLimited, by simp [authenticateSocket, hb]⟩
  · intro t ht hexp
    cases hb : (checkRateLimit h.now rl).1 with
    | true => exact ⟨AuthError.rateLimited, by simp [authenticateSocket, hb]⟩
    | false =>
      cases hblk : bl with
      | true => exact ⟨AuthError.revoked, by simp [authenticateSocket, ht, hb, hblk]⟩
      | false =>
        by_cases halg : (!t.algIsHS256 || !t.signatureValid) = true
        · exact ⟨AuthError.invalid,
            by simp [authenticateSocket, ht, hb, hblk, jwtVerify, halg]⟩
        · exact ⟨AuthError.expired,
            by simp [authenticateSocket, ht, hb, hblk, jwtVerify, halg, hexp]⟩
  · intro t ht halg
    cases hb : (checkRateLimit h.now rl).1 with
    | true => exact ⟨AuthError.rateLimited, by simp [authenticateSocket, hb]⟩
    | false =>
      cases hblk : bl with
      | true => exact ⟨AuthError.revoked, by simp [authenticateSocket, ht, hb, hblk]⟩
      | false =>
        exact ⟨AuthError.invalid,
          by simp [authenticateSocket, ht, hb, hblk, jwtVerify, halg]⟩
  · intro t ht hid
    cases hb : (checkRateLimit h.now rl).1 with
    | true => exact ⟨AuthError.rateLimited, by simp [authenticateSocket, hb]⟩
    | false =>
      cases hblk : bl with
      | true => exact ⟨AuthError.revoked, by simp [authenticateSocket, ht, hb, hblk]⟩
      | false =>
        cases hver : jwtVerify t with
        | error e =>
          cases e with
          | tokenExpired => exact ⟨AuthError.expired,
              by simp [authenticateSocket, ht, hb, hblk, hver]⟩
          | jsonWebTokenError => exact ⟨AuthError.invalid,
              by simp [authenticateSocket, ht, hb, hblk, hver]⟩
        | ok payload =>
          have hp : payload = t.payload := jwtVerify_ok t payload hver
          subst hp
          have hcnd : (!(jsTruthyS t.payload.id &&
              jsTruthyS t.payload.email)) = true := by
            rcases hid with h1 | h1 <;> simp [h1]
          exact ⟨AuthError.incomplete,
            by simp [authenticateSocket, ht, hb, hblk, hver, hcnd]⟩
  · intro a ha
    simp only [authenticateSocket] at ha
    cases hb : (checkRateLimit h.now rl).1 with
    | true => rw [hb] at ha; simp at ha
    | false =>
      rw [hb] at ha
      simp only [Bool.false_eq_true, if_false] at ha
      cases ht : h.token with
      | none => rw [ht] at ha; simp at ha
      | some t =>
        rw [ht] at ha
        cases hblk : bl with
        | true => rw [hblk] at ha; simp at ha
        | false =>
          rw [hblk] at ha
          simp only [Bool.false_eq_true, if_false] at ha
          cases hver : jwtVerify t with
          | error e => rw [hver] at ha; cases e <;> simp at ha
          | ok payload =>
            simp only [hver] at ha
            by_cases hc : (!(jsTruthyS payload.id &&
                jsTruthyS payload.email)) = true
            · rw [if_pos hc] at ha
              simp at ha
            · rw [if_neg hc] at ha
              have ha2 : (⟨payload, h.now, h.clientIp⟩ : AuthedSession) = a :=
                Except.ok.inj ha
              subst ha2
              exact ⟨⟨t, rfl, jwtVerify_ok t payload hver⟩, rfl, rfl⟩

/-- Well-formed bearer token used by witnesses. -/
def goodToken : TokenInfo :=
  { payload := { id := some "u1", email := some "a@x", name := some "Alice" },
    algIsHS256 := true, signatureValid := true, withinMaxAge := true }

/-- Expired but otherwise well-formed bearer token used by witnesses. -/
def expiredToken : TokenInfo :=
  { payload := { id := some "u1", email := some "a@x", name := some "Alice" },
    algIsHS256 := true, signatureValid := true, withinMaxAge := false }

/-- C7 witness: the guard theorem applied to a missing token, an expired
token, and an admitted session. -/
theorem authenticateSocket_guards_witness :
    (∃ e, (authenticateSocket ⟨none, "1.2.3.4", 10⟩ false none).1 =
      Except.error e)
    ∧ (∃ e, (authenticateSocket ⟨some expiredToken, "1.2.3.4", 10⟩ false
        none).1 = Except.error e)
    ∧ (⟨goodToken.payload, 10, "1.2.3.4"⟩ : AuthedSession).connectedAt = 10 :=
  ⟨(authenticateSocket_guards ⟨none, "1.2.3.4", 10⟩ false none).1 rfl,
   (authenticateSocket_guards ⟨some expiredToken, "1.2.3.4", 10⟩ false
      none).2.2.1 expiredToken rfl rfl,
   ((authenticateSocket_guards ⟨some goodToken, "1.2.3.4", 10⟩ false
      none).2.2.2.2.2 ⟨goodToken.payload, 10, "1.2.3.4"⟩ (by rfl)).2.1⟩

/-- Sequential rate-limit checks at the given instants, threading the bucket. -/
def rlFold (ts : List Nat) (st : Option RateData) :
    List Bool × Option RateData :=
  match ts with
  | [] => ([], st)
  | t :: rest =>
    let c := checkRateLimit t st
    let r := rlFold rest c.2
    (c.1 :: r.1, r.2)

theorem rlFold_within_window (t0 : Nat) (ts : List Nat) :
    ∀ c, (∀ t ∈ ts, t - t0 ≤ RATE_LIMIT_WINDOW) →
    c + ts.length ≤ MAX_CONNECTIONS_PER_MINUTE →
    rlFold ts (some ⟨c, t0⟩) =
      (List.replicate ts.length false, some ⟨c + ts.length, t0⟩) := by
  induction ts with
  | nil => intro c _ _; simp [rlFold]
  | cons t rest ih =>
    intro c hin hc
    have ht := hin t (List.mem_cons_self _ _)
    have hstep : checkRateLimit t (some ⟨c, t0⟩) =
        (false, some ⟨c + 1, t0⟩) := by
      simp only [checkRateLimit]
      rw [if_neg (by omega)]
      have : (decide (c + 1 > MAX_CONNECTIONS_PER_MINUTE)) = false := by
        simp only [decide_eq_false_iff_not]
        simp only [List.length_cons] at hc
        omega
      rw [this]
    have hrest := ih (c + 1) (fun q hq => hin q (List.mem_cons_of_mem _ hq))
      (by simp only [List.length_cons] at hc; omega)
    simp only [rlFold, hstep, hrest, List.length_cons]
    rw [List.replicate_succ]
    have h2 : c + 1 + rest.length = c + (rest.length + 1) := by omega
    rw [← h2]

/-- C6: for one IP, the first handshake creates the bucket and is admitted,
the following MAX_CONNECTIONS_PER_MINUTE - 1 checks within the same 60-second
window are all admitted leaving the counter at the maximum, the
(MAX_CONNECTIONS_PER_MINUTE + 1)-th check within the window is rejected, a
rejected check makes the authenticator fail the handshake with the rate-limit
error, and a check made strictly more than RATE_LIMIT_WINDOW after the window
start resets the counter to 1 and is admitted. -/
theorem rate_limit_window_behavior (t0 : Nat) (ts : List Nat)
    (hlen : ts.length = MAX_CONNECTIONS_PER_MINUTE - 1)
    (hin : ∀ t ∈ ts, t - t0 ≤ RATE_LIMIT_WINDOW) :
    checkRateLimit t0 none = (false, some ⟨1, t0⟩)
    ∧ (rlFold ts (some ⟨1, t0⟩)).1 = List.replicate ts.length false
    ∧ (rlFold ts (some ⟨1, t0⟩)).2 =
        some ⟨MAX_CONNECTIONS_PER_MINUTE, t0⟩
    ∧ (∀ t, t - t0 ≤ RATE_LIMIT_WINDOW →
        (checkRateLimit t (some ⟨MAX_CONNECTIONS_PER_MINUTE, t0⟩)).1 = true)
    ∧ (∀ (h : Handshake) (bl : Bool) (rl : Option RateData),
        (checkRateLimit h.now rl).1 = true →
        (authenticateSocket h bl rl).1 = Except.error AuthError.rateLimited)
    ∧ (∀ t c, t - t0 > RATE_LIMIT_WINDOW →
        checkRateLimit t (some ⟨c, t0⟩) = (false, some ⟨1, t⟩)) := by
  have hfold := rlFold_within_window t0 ts 1 hin
    (by rw [hlen]; decide)
  refine ⟨rfl, ?_, ?_, ?_, ?_, ?_⟩
  · rw [hfold]
  · rw [hfold]
    have : 1 + ts.length = MAX_CONNECTIONS_PER_MINUTE := by
      rw [hlen]
      decide
    rw [this]
  · intro t ht
    simp only [checkRateLimit]
    rw [if_neg (by omega)]
    simp [MAX_CONNECTIONS_PER_MINUTE]
  · intro h bl rl hlim
    simp [authenticateSocket, hlim]
  · intro t c ht
    simp only [checkRateLimit]
    rw [if_pos (by omega)]

/-- Fifty-nine further attempts, all at instant 1, within the window that
starts at 0. -/
def rlAttempts : List Nat := List.replicate 59 1

/-- C6 witness: the window theorem applied to a concrete run of sixty
admitted attempts, a rejected sixty-first, and a reset after the window. -/
theorem rate_limit_window_behavior_witness :
    (rlFold rlAttempts (some ⟨1, 0⟩)).2 =
      some ⟨MAX_CONNECTIONS_PER_MINUTE, 0⟩
    ∧ (checkRateLimit 2 (some ⟨MAX_CONNECTIONS_PER_MINUTE, 0⟩)).1 = true
    ∧ checkRateLimit 60001 (some ⟨7, 0⟩) = (false, some ⟨1, 60001⟩) :=
  ⟨(rate_limit_window_behavior 0 rlAttempts (by decide) (by decide)).2.2.1,
   (rate_limit_window_behavior 0 rlAttempts (by decide) (by decide)).2.2.2.1 2
     (by decide),
   (rate_limit_window_behavior 0 rlAttempts (by decide) (by decide)).2.2.2.2.2
     60001 7 (by decide)⟩

/-! ## Note collaboration handler (note.handler.js) -/

/-- Entry of the per-note ordered member list: socket id and user snapshot. -/
structure NoteEntry where
  id : String
  userData : UserData
deriving DecidableEq, Repr

/-- Process state touched by NoteHandler: per-note member lists and contents. -/
structure NoteState where
  noteUsers : List (String × List NoteEntry) := []
  noteContents : List (String × String) := []
deriving DecidableEq, Repr

/-- Emissions of the cursor path. cursorUpdatedAll reifies an emit through
io.in(room), which reaches every session in the room, the sender included. -/
inductive NoteEvent where
  | cursorUpdatedAll (room : String) (noteId : String) (userId : String)
      (userData : UserData) (cursor : Option String)
deriving DecidableEq, Repr

/-- Room naming used by the note handler. -/
def noteRoom (workspaceId noteId : String) : String :=
  "note:" ++ workspaceId ++ ":" ++ noteId

/-- NoteHandler.handleCursorUpdate: look up the note, then the session entry
by socket id; when absent, drop silently; when present, broadcast
cursor_updated with the note id, the session id, the stored user snapshot and
the cursor value to every session in the note room, sender included. The
state is never changed. -/
def handleCursorUpdate (sid workspaceId noteId : String)
    (cursorData : Option String) (s : NoteState) : List NoteEvent :=
  match jsGet noteId s.noteUsers with
  | none => []
  | some usersList =>
    match usersList.find? (fun u => u.id == sid) with
    | none => []
    | some u =>
      [NoteEvent.cursorUpdatedAll (noteRoom workspaceId noteId) noteId sid
        u.userData cursorData]

/-- C9: a cursor_update from a session whose entry is in the note member list
produces exactly one cursor_updated broadcast, carrying the note id, the
session id as userId, the stored user snapshot and the cursor value, sent to
the whole note room including the sender; a cursor_update from a session with
no entry in the note, or for an unknown note, is dropped silently with no
broadcast and no error. -/
theorem cursor_update_echo (s : NoteState) (sid workspaceId noteId : String)
    (cursorData : Option String) :
    (∀ usersList u,
      jsGet noteId s.noteUsers = some usersList →
      usersList.find? (fun u2 => u2.id == sid) = some u →
      handleCursorUpdate sid workspaceId noteId cursorData s =
        [NoteEvent.cursorUpdatedAll (noteRoom workspaceId noteId) noteId sid
          u.userData cursorData])
    ∧ (jsGet noteId s.noteUsers = none →
        handleCursorUpdate sid workspaceId noteId cursorData s = [])
    ∧ (∀ usersList,
        jsGet noteId s.noteUsers = some usersList →
        usersList.find? (fun u2 => u2.id == sid) = none →
        handleCursorUpdate sid workspaceId noteId cursorData s = []) := by
  refine ⟨?_, ?_, ?_⟩
  · intro usersList u hnote hfind
    simp [handleCursorUpdate, hnote, hfind]
  · intro hnote
    simp [handleCursorUpdate, hnote]
  · intro usersList hnote hfind
    simp [handleCursorUpdate, hnote, hfind]

/-- Note state with one member sA of note n1 holding snapshot uA1. -/
def noteOneMember : NoteState :=
  { noteUsers := [("n1", [⟨"sA", uA1⟩])] }

/-- C9 witness: the echo theorem applied at a present member and at an absent
one. -/
theorem cursor_update_echo_witness :
    handleCursorUpdate "sA" "w1" "n1" (some "c") noteOneMember =
      [NoteEvent.cursorUpdatedAll (noteRoom "w1" "n1") "n1" "sA" uA1
        (some "c")]
    ∧ handleCursorUpdate "sB" "w1" "n1" (some "c") noteOneMember = [] :=
  ⟨(cursor_update_echo noteOneMember "sA" "w1" "n1" (some "c")).1
      [⟨"sA", uA1⟩] ⟨"sA", uA1⟩ (by rfl) (by rfl),
   (cursor_update_echo noteOneMember "sB" "w1" "n1" (some "c")).2.2
      [⟨"sA", uA1⟩] (by rfl) (by rfl)⟩
